import Mathlib

/-!
# Healthcare Provider Fraud pipeline — verification development

A shallow embedding, in Lean 4, of the data-transformation core of the
Healthcare_Provider_Fraud repository, together with proofs and refutations of
the testable properties stated for it.

Conventions of the embedding:

* A pandas cell is a `Val`: a string, an exact rational number, a boolean, or
  the missing-value marker `Val.null` (pandas `NaN`/`NaT`/`None`).
* A nullable column of a fixed type is an `Option` of that type where the code
  only ever reads it through null-aware operations.
* Floating-point division of numpy integers is modelled over `ℚ` with the IEEE
  special cases made explicit (`FloatVal.inf`, `FloatVal.nan` for a zero
  denominator); exact rational arithmetic agrees with float arithmetic on every
  finite value appearing in the concrete inputs used below.
* The descending count sorts of `sort_values` and `value_counts` use numpy's
  default `quicksort`, which pandas documents as not stable: among tied
  counts the output arrangement is unspecified.  They are therefore modelled
  relationally — the program's output is one of the descending-count
  arrangements of its input — rather than as a particular deterministic
  sort.  (numpy's introsort coincides with a stable insertion sort below its
  small-array threshold, which makes the concrete two-element refutation
  below exact for the real program.)  The `groupby(sort=True)` key sort acts
  on distinct keys, where every comparison sort agrees, and is modelled as
  the ascending arrangement.
-/

namespace HPF

/-- A single cell of a pandas table: string, exact number, boolean, or the
missing-value marker (`NaN` / `NaT` / `None`). -/
inductive Val where
  | str (s : String)
  | num (q : ℚ)
  | boolV (b : Bool)
  | null
deriving DecidableEq, Repr

/-- Result of a numpy floating-point division: a finite value, `inf`, or
`nan`.  Division by zero of a positive numerator yields `inf`, of a zero
numerator `nan`; no exception is raised. -/
inductive FloatVal where
  | fin (q : ℚ)
  | inf
  | nan
deriving DecidableEq, Repr

/-- numpy float division `a / b` (for `a ≥ 0`, the only case arising here). -/
def floatDiv (a b : ℚ) : FloatVal :=
  if b = 0 then (if a = 0 then .nan else .inf) else .fin (a / b)

/-- The distinct values of a list in order of first occurrence — the order in
which pandas `factorize` (hence `Series.unique`, `Series.nunique` and the
keys of `value_counts`) enumerates categories. -/
def uniqueFirst {α : Type} [DecidableEq α] : List α → List α
  | [] => []
  | a :: t => a :: (uniqueFirst t).filter (fun x => x ≠ a)

/-- Lexicographic comparison of character lists by code point — the ordering
Python uses on `str`, which pandas `groupby(sort=True)` applies to keys. -/
def strListLt : List Char → List Char → Bool
  | [], [] => false
  | [], _ :: _ => true
  | _ :: _, [] => false
  | a :: as, b :: bs =>
    if a.toNat < b.toNat then true
    else if b.toNat < a.toNat then false
    else strListLt as bs

/-- `a ≤ b` on strings by code-point order (kernel-computable). -/
def strLe (a b : String) : Bool := a = b || strListLt a.data b.data

/-- `strLe` as a proposition, for use with `List.insertionSort`. -/
def strLeP (a b : String) : Prop := strLe a b = true

instance : DecidableRel strLeP := fun a b => by
  unfold strLeP; infer_instance

/-! ## `src/data/preprocess_data.py` — BeneficiaryProcessor and ClaimsProcessor -/

/-- One row of the beneficiary table, restricted to the columns
`process_beneficiary_data` touches.  `chronicConds` are the eleven
`ChronicCond_*` cells in column order; `dummyCols` are the indicator columns a
previous `pd.concat` appended (empty on raw input).  All other beneficiary
columns pass through the function unchanged and are omitted. -/
structure BeneRow where
  chronicConds : List Val
  renal : Val
  gender : Val
  race : Val
  dummyCols : List (String × Val)
deriving DecidableEq, Repr

/-- `df.filter(like='ChronicCond_').replace({1: 1, 2: 0})` applied to one
cell: `1 ↦ 1`, `2 ↦ 0`, every other value (strings, other numbers, `NaN`) is
left unchanged. -/
def replaceChronic (v : Val) : Val :=
  if v = .num 1 then .num 1 else if v = .num 2 then .num 0 else v

/-- `df['RenalDiseaseIndicator'].map({'0': 0, 'Y': 1})` applied to one cell:
pandas `Series.map` with a dict sends every value outside the dict's keys —
including an already-recoded numeric `0` or `1` — to `NaN`. -/
def mapRenal (v : Val) : Val :=
  if v = .str "0" then .num 0 else if v = .str "Y" then .num 1 else .null

/-- `df['Gender'].map({1: 'Male', 2: 'Female'})` on one cell; values outside
`{1, 2}` become missing. -/
def mapGender (v : Val) : Option String :=
  if v = .num 1 then some "Male"
  else if v = .num 2 then some "Female"
  else none

/-- `df['Race'].map({1:'White', 2:'Black', 3:'Other', 4:'Unknown',
5:'Hispanic'})` on one cell; values outside `1..5` become missing. -/
def mapRace (v : Val) : Option String :=
  if v = .num 1 then some "White"
  else if v = .num 2 then some "Black"
  else if v = .num 3 then some "Other"
  else if v = .num 4 then some "Unknown"
  else if v = .num 5 then some "Hispanic"
  else none

/-- The category names `pd.get_dummies` discovers for a mapped column over the
whole table: the distinct non-missing values present in this batch, in sorted
order (pandas sorts object-dtype categories when building dummy columns).
This is dynamic category discovery: the result depends on the batch. -/
def dummyCategories (mapped : List (Option String)) : List String :=
  List.insertionSort strLeP (uniqueFirst (mapped.filterMap id))

/-- The value of the dummy column for category `c` in a row whose mapped cell
is `v`: `1` if the cell equals the category, else `0` (a missing cell yields
`0` in every discovered column). -/
def dummyVal (c : String) (v : Option String) : Val :=
  if v = some c then .num 1 else .num 0

/-- The gender dummy-column names `process_beneficiary_data` produces for a
given batch: one column `Gender_<cat>` per category present. -/
def genderDummyCols (tbl : List BeneRow) : List String :=
  (dummyCategories (tbl.map (fun r => mapGender r.gender))).map
    (fun c => "Gender_" ++ c)

/-- The race dummy-column names produced for a given batch. -/
def raceDummyCols (tbl : List BeneRow) : List String :=
  (dummyCategories (tbl.map (fun r => mapRace r.race))).map
    (fun c => "Race_" ++ c)

/-- `process_beneficiary_data` (src/data/preprocess_data.py, lines 5–22):
recodes the `ChronicCond_*` columns with `replace({1: 1, 2: 0})`, recodes
`RenalDiseaseIndicator` with `map({'0': 0, 'Y': 1})`, and concatenates
`get_dummies` indicator columns for the mapped `Gender` and `Race` columns
(the original `Gender`/`Race` columns are kept unchanged). -/
def process_beneficiary_data (tbl : List BeneRow) : List BeneRow :=
  let gcats := dummyCategories (tbl.map (fun r => mapGender r.gender))
  let rcats := dummyCategories (tbl.map (fun r => mapRace r.race))
  tbl.map (fun r =>
    { chronicConds := r.chronicConds.map replaceChronic
      renal := mapRenal r.renal
      gender := r.gender
      race := r.race
      dummyCols := r.dummyCols
        ++ gcats.map (fun c => ("Gender_" ++ c, dummyVal c (mapGender r.gender)))
        ++ rcats.map (fun c => ("Race_" ++ c, dummyVal c (mapRace r.race))) })

/-- One row of an inpatient or outpatient claims table as seen by
`process_claims_data`.  Date cells are already-parsed calendar days
(`pd.to_datetime` on a parsable cell; `none` for a missing or unparsable
cell).  `isInpatient` / `isOutpatient` are `none` when the column is absent
from the source table (it becomes `NaN` after `pd.concat`).  All remaining
claim columns pass through unchanged and are carried opaquely in `rest`. -/
structure ClaimsRow where
  rest : List (String × Val)
  claimStart : Option ℤ
  claimEnd : Option ℤ
  admission : Option ℤ
  discharge : Option ℤ
  isInpatient : Option Bool
  isOutpatient : Option Bool
deriving DecidableEq, Repr

/-- `process_claims_data` (src/data/preprocess_data.py, lines 24–37): sets
`Is_Inpatient = True` on every inpatient row and `Is_Outpatient = True` on
every outpatient row, then concatenates the two tables.  A column present in
only one input is `NaN` (`none`) on the other input's rows after `pd.concat`.
The four date columns are parsed with `pd.to_datetime` (identity in this
model, where dates are already canonical `Option ℤ`). -/
def process_claims_data (inRows outRows : List ClaimsRow) : List ClaimsRow :=
  (inRows.map (fun r => { r with isInpatient := some true }))
    ++ (outRows.map (fun r => { r with isOutpatient := some true }))

/-! ## `src/features/build_features.py` — Aggregator and LabelMerger -/

/-- One row of the merged claim-level table entering
`aggregate_claims_features`, restricted to the columns read by the aggregates
the verified properties are about.  `Provider` is never missing in the claims
data (a missing key would be dropped by `groupby`); `BeneID`/`ClaimID` are
nullable, matching pandas `nunique`/`count` which skip nulls.  The remaining
~30 aggregated columns are each produced by an independent per-column
reduction of the same shape and are omitted. -/
structure MergedRow where
  provider : String
  beneId : Option String
  claimId : Option String
  amount : ℚ
  isInpatient : Option Bool
  isOutpatient : Option Bool
  hospitalStayDays : Option ℚ
  stayVsClaimDiff : Option ℚ
deriving DecidableEq, Repr

/-- The `fillna` preamble of `aggregate_claims_features` (lines 40–43):
`hospital_stay_days` and `stay_vs_claim_diff` missing values become `0`;
`Is_Inpatient` and `Is_Outpatient` missing values become `False`. -/
def fillMergedRow (r : MergedRow) : MergedRow :=
  { r with
    hospitalStayDays := some (r.hospitalStayDays.getD 0)
    stayVsClaimDiff := some (r.stayVsClaimDiff.getD 0)
    isInpatient := some (r.isInpatient.getD false)
    isOutpatient := some (r.isOutpatient.getD false) }

/-- pandas `Series.std` (sample standard deviation, `ddof = 1`), represented
by its square — the sample variance — to stay inside `ℚ`: the float pandas
stores is the square root of this value, which is missing iff this is `none`
(a group with fewer than two rows) and zero iff this is `some 0`.  The
verified properties only inspect missingness and equality with zero, on which
the representation and the source value agree. -/
def sampleStdSq (xs : List ℚ) : Option ℚ :=
  if xs.length ≤ 1 then none
  else
    let n : ℚ := xs.length
    let m : ℚ := xs.sum / n
    some ((xs.map (fun x => (x - m) ^ 2)).sum / (n - 1))

/-- One output row of `aggregate_claims_features`, restricted to the
aggregates the verified properties read (the other per-column reductions are
independent and omitted). -/
structure ProviderFeatures where
  provider : String
  count_unique_beneficiary : ℕ
  count_unique_claims : ℕ
  mean_claim_amount : ℚ
  total_claim_amount : ℚ
  std_claim_amount : Option ℚ
  count_inpatient : ℕ
  count_outpatient : ℕ
  claims_per_bene : FloatVal
deriving DecidableEq, Repr

/-- The aggregate row `aggregate_claims_features` computes for provider `p`
from its (already `fillna`-treated) group `g`:
`count_unique_beneficiary = ('BeneID','nunique')` (distinct non-null values),
`count_unique_claims = ('ClaimID','count')` (non-null values),
`mean/total/std` of `InscClaimAmtReimbursed`,
`count_inpatient/count_outpatient = ('Is_Inpatient'/'Is_Outpatient','sum')`,
and finally `claims_per_bene = count_unique_claims / count_unique_beneficiary`
(line 90) — a numpy float division, which on a zero denominator silently
yields `inf` (or `nan` for `0/0`) rather than raising. -/
def providerAggRow (p : String) (g : List MergedRow) : ProviderFeatures :=
  let amounts := g.map (fun r => r.amount)
  let benes := (uniqueFirst (g.filterMap (fun r => r.beneId))).length
  let claims := (g.filterMap (fun r => r.claimId)).length
  { provider := p
    count_unique_beneficiary := benes
    count_unique_claims := claims
    mean_claim_amount := amounts.sum / amounts.length
    total_claim_amount := amounts.sum
    std_claim_amount := sampleStdSq amounts
    count_inpatient := (g.filter (fun r => r.isInpatient = some true)).length
    count_outpatient := (g.filter (fun r => r.isOutpatient = some true)).length
    claims_per_bene := floatDiv claims benes }

/-- `aggregate_claims_features` (src/features/build_features.py, lines
38–92): fills the four defensive columns, groups by `Provider` (pandas
`groupby` with the default `sort=True` emits one row per distinct provider,
keys in ascending order), computes the per-provider aggregates, and derives
`claims_per_bene`. -/
def aggregate_claims_features (rows : List MergedRow) : List ProviderFeatures :=
  let filled := rows.map fillMergedRow
  let provs := List.insertionSort strLeP
    (uniqueFirst (filled.map (fun r => r.provider)))
  provs.map (fun p => providerAggRow p (filled.filter (fun r => r.provider = p)))

/-- One row of the provider-label table (`Provider`, `PotentialFraud` with
the raw `"Yes"`/`"No"` encoding). -/
structure ProviderRow where
  provider : String
  potentialFraud : String
deriving DecidableEq, Repr

/-- `df['PotentialFraud'].map({"No": 0, "Yes": 1})` on one cell; any other
value becomes missing. -/
def mapFraud : String → Option ℕ
  | "No" => some 0
  | "Yes" => some 1
  | _ => none

/-- One row of the labeled training table produced by
`merge_provider_train`; feature columns are nullable because the left join
leaves them `NaN` for a provider absent from the aggregated table.  Feature
columns other than the ones the verified properties read are carried through
the merge unchanged and are omitted. -/
structure TrainRow where
  provider : String
  potentialFraud : Option ℕ
  count_unique_claims : Option ℕ
  std_claim_amount : Option ℚ
deriving DecidableEq, Repr

/-- pandas `Series.fillna(0)` on one nullable rational cell. -/
def fillnaQ (o : Option ℚ) : Option ℚ := some (o.getD 0)

/-- `merge_provider_train` (src/features/build_features.py, lines 94–100):
left-joins the aggregated features onto the label table by `Provider`
(`provider.merge(features, on='Provider', how='left')`; the aggregated table
has one row per provider, so each label row matches at most one feature row),
then fills missing `std_claim_amount` with `0` and recodes
`PotentialFraud`. -/
def merge_provider_train (features : List ProviderFeatures)
    (provider : List ProviderRow) : List TrainRow :=
  provider.map (fun pr =>
    let f := features.find? (fun x => x.provider = pr.provider)
    { provider := pr.provider
      potentialFraud := mapFraud pr.potentialFraud
      count_unique_claims := f.map (fun x => x.count_unique_claims)
      std_claim_amount := fillnaQ (f.bind (fun x => x.std_claim_amount)) })

/-! ## `src/features/build_features.py` — TopCodeExtractor (`generate_top_codes`) -/

/-- One claim row as read by `generate_top_codes`. -/
structure TCRow where
  claimId : Option String
  admitDiagnosis : Option String
  attending : Option String
  operating : Option String
deriving DecidableEq, Repr

/-- `df.groupby(['ClmAdmitDiagnosisCode'])['ClaimID'].count()` for group key
`k`: the number of non-null `ClaimID` cells among rows with that admitting
diagnosis code. -/
def claimCountFor (rows : List TCRow) (k : String) : ℕ :=
  ((rows.filter (fun r => r.admitDiagnosis = some k)).filterMap
    (fun r => r.claimId)).length

/-- "May precede" relation of a descending sort on a count function: `a` may
come before `b` when `a`'s count is at least `b`'s.  This is exactly the
comparison `sort_values(by=count, ascending=False)` sorts with. -/
def countDescLe {α : Type} (cnt : α → ℕ) (a b : α) : Prop := cnt b ≤ cnt a

instance {α : Type} (cnt : α → ℕ) : DecidableRel (countDescLe cnt) :=
  fun a b => Nat.decLe (cnt b) (cnt a)

/-- Descending count with ties broken by a strictly smaller auxiliary index —
the ranking the specification prescribes when the index is the position of
first encounter in the input. -/
def countDescIdxLe {α : Type} (cnt idx : α → ℕ) (a b : α) : Prop :=
  cnt b < cnt a ∨ (cnt a = cnt b ∧ idx a ≤ idx b)

instance {α : Type} (cnt idx : α → ℕ) : DecidableRel (countDescIdxLe cnt idx) :=
  fun a b =>
    inferInstanceAs (Decidable (cnt b < cnt a ∨ (cnt a = cnt b ∧ idx a ≤ idx b)))

instance {α : Type} (cnt idx : α → ℕ) : IsTotal α (countDescIdxLe cnt idx) where
  total a b := by
    unfold countDescIdxLe
    rcases Nat.lt_trichotomy (cnt a) (cnt b) with h | h | h
    · exact Or.inr (Or.inl h)
    · rcases Nat.le_total (idx a) (idx b) with hi | hi
      · exact Or.inl (Or.inr ⟨h, hi⟩)
      · exact Or.inr (Or.inr ⟨h.symm, hi⟩)
    · exact Or.inl (Or.inl h)

instance {α : Type} (cnt idx : α → ℕ) : IsTrans α (countDescIdxLe cnt idx) where
  trans a b c hab hbc := by
    unfold countDescIdxLe at *
    rcases hab with h1 | ⟨h1, i1⟩
    · rcases hbc with h2 | ⟨h2, _⟩
      · exact Or.inl (Nat.lt_trans h2 h1)
      · exact Or.inl (h2 ▸ h1)
    · rcases hbc with h2 | ⟨h2, i2⟩
      · exact Or.inl (h1 ▸ h2)
      · exact Or.inr ⟨h1.trans h2, Nat.le_trans i1 i2⟩

/-- The non-null values of the `AttendingPhysician` column, in row order —
what `Series.value_counts` counts over (null cells dropped). -/
def attendingVals (rows : List TCRow) : List String :=
  (rows.map (fun r => r.attending)).filterMap id

/-- The non-null values of the `OperatingPhysician` column, in row order. -/
def operatingVals (rows : List TCRow) : List String :=
  (rows.map (fun r => r.operating)).filterMap id

/-- The non-null values of the `ClmAdmitDiagnosisCode` column, in row order. -/
def diagnosisVals (rows : List TCRow) : List String :=
  (rows.map (fun r => r.admitDiagnosis)).filterMap id

/-- The key column of `df.groupby(['ClmAdmitDiagnosisCode'])` after
`reset_index`: the distinct non-null codes, in ascending code order
(`groupby`'s default `sort=True`).  The keys are distinct, so every
comparison sort produces this same arrangement and the model is exact. -/
def diagnosisKeys (rows : List TCRow) : List String :=
  List.insertionSort strLeP (uniqueFirst (diagnosisVals rows))

/-- The possible outputs of `<descending count sort>.head(20)` over `base`:
pandas' default `kind='quicksort'` guarantees only that the result is a
permutation of its input arranged in descending count order — the sort is
documented as not stable, so the arrangement of tied elements is
unspecified.  An output is admissible iff it is the first 20 elements of
some such arrangement.  (numpy's introsort is deterministic and coincides
with a stable insertion sort below its small-array threshold; above it tied
elements may be reordered.) -/
def IsTop20Output {α : Type} (cnt : α → ℕ) (base out : List α) : Prop :=
  ∃ arranged : List α, arranged.Perm base
    ∧ arranged.Sorted (countDescLe cnt)
    ∧ out = arranged.take 20

/-- The admissible contents of `top_diagnosis_code.csv`
(src/features/build_features.py, line 6): `groupby` on the diagnosis code
(null keys dropped, keys emitted in ascending order), count of non-null
`ClaimID` per key, `sort_values` by that count descending (unstable),
`head(20)`, then `.unique()` (an identity on the already-distinct keys,
preserving order). -/
def IsTopDiagnosis (rows : List TCRow) (out : List String) : Prop :=
  IsTop20Output (claimCountFor rows) (diagnosisKeys rows) out

/-- The admissible contents of `top_attending_physician.csv` (line 8):
`value_counts` enumerates the distinct non-null values in first-occurrence
order (`factorize`) and sorts them by occurrence count descending
(unstable); `head(20).index` keeps the first 20. -/
def IsTopAttending (rows : List TCRow) (out : List String) : Prop :=
  IsTop20Output (fun v => (attendingVals rows).count v)
    (uniqueFirst (attendingVals rows)) out

/-- The admissible contents of `top_operating_physician.csv` (line 9). -/
def IsTopOperating (rows : List TCRow) (out : List String) : Prop :=
  IsTop20Output (fun v => (operatingVals rows).count v)
    (uniqueFirst (operatingVals rows)) out

/-- Modelled from the spec's words (for comparison with the source): the
top-20 ranking §4.4 prescribes for a column — descending claim count, ties
broken by first-encountered order in the input. -/
def specTop20 (col : List (Option String)) (cnt : String → ℕ) : List String :=
  let vals := col.filterMap id
  (List.insertionSort (countDescIdxLe cnt (fun v => vals.indexOf v))
    (uniqueFirst vals)).take 20

/-- The specification's ranking for the admitting-diagnosis reference set. -/
def specTopDiagnosis (rows : List TCRow) : List String :=
  specTop20 (rows.map (fun r => r.admitDiagnosis)) (claimCountFor rows)

/-- The specification's ranking for the attending-physician reference set. -/
def specTopAttending (rows : List TCRow) : List String :=
  specTop20 (rows.map (fun r => r.attending))
    (fun v => ((rows.map (fun r => r.attending)).filterMap id).count v)

/-- The specification's ranking for the operating-physician reference set. -/
def specTopOperating (rows : List TCRow) : List String :=
  specTop20 (rows.map (fun r => r.operating))
    (fun v => ((rows.map (fun r => r.operating)).filterMap id).count v)

/-! ## `src/models/tune.py` and `src/models/train.py` — tuner and trainer -/

/-- A Python `dict` with string keys, in insertion order, no duplicate keys. -/
abbrev PyDict := List (String × Val)

/-- `d[k] = v`: replace the value of an existing key in place, else append. -/
def dictSet (d : PyDict) (k : String) (v : Val) : PyDict :=
  if d.any (fun kv => kv.1 = k) then
    d.map (fun kv => if kv.1 = k then (k, v) else kv)
  else d ++ [(k, v)]

/-- `d.update(u)`: set every binding of `u` in `d`, left to right. -/
def dictUpdate (d u : PyDict) : PyDict :=
  u.foldl (fun acc kv => dictSet acc kv.1 kv.2) d

/-- `d.get(k)`. -/
def dictGet (d : PyDict) (k : String) : Option Val :=
  (d.find? (fun kv => kv.1 = k)).map (fun kv => kv.2)

/-- Python 3 `round` on an exact value: round half to even. -/
def roundHalfEven (q : ℚ) : ℤ :=
  let f := ⌊q⌋
  if q - f < 1 / 2 then f
  else if (1 : ℚ) / 2 < q - f then f + 1
  else if Even f then f else f + 1

/-- `round((y_train == 0).sum() / (y_train == 1).sum())` (tune.py line 35,
train.py line 48) over a list of 0/1 labels.  With no positive label the
float division yields `inf` and `round(inf)` raises `OverflowError`; `none`
models that raised exception. -/
def scalePosWeight (y : List ℕ) : Option ℤ :=
  if y.count 1 = 0 then none
  else some (roundHalfEven ((y.count 0 : ℚ) / (y.count 1 : ℚ)))

/-- The hyperparameter dict `tune_model` returns (tune.py lines 69–78):
`study.best_params` updated with the fixed seed, thread count, the
class-imbalance weight recomputed from the training split's labels, and the
final eval metric.  `none` models the exception raised when the split has no
positive label. -/
def tuneBestParams (searchBest : PyDict) (yTrain : List ℕ) : Option PyDict :=
  (scalePosWeight yTrain).map (fun w =>
    dictUpdate searchBest
      [("random_state", .num 42), ("n_jobs", .num (-1)),
       ("scale_pos_weight", .num w), ("eval_metric", .str "logloss")])

/-- The parameter dict `train_model` instantiates `XGBClassifier` with
(train.py lines 50–64): defaults carrying the recomputed imbalance weight;
when tuned parameters are supplied they are merged over the defaults and
`scale_pos_weight` is then overwritten with the weight recomputed on this
split (`default_params['scale_pos_weight'] = scale_pos_weight`, line 62). -/
def trainParams (xgbParams : Option PyDict) (yTrain : List ℕ) :
    Option PyDict :=
  (scalePosWeight yTrain).map (fun w =>
    let dflt : PyDict :=
      [("objective", .str "binary:logistic"), ("eval_metric", .str "auc"),
       ("n_jobs", .num (-1)), ("random_state", .num 42),
       ("scale_pos_weight", .num w)]
    match xgbParams with
    | none => dflt
    | some p => dictSet (dictUpdate dflt p) "scale_pos_weight" (.num w))

/-- `cross_val_score(pipeline, X_train, y_train, cv=cv, scoring='roc_auc')`
as called by the objective (tune.py line 59), with sklearn's default
`error_score=np.nan`: a fold whose estimator `fit` raises — the claim's
failure modes, numerical instability and invalid parameter combinations,
surface during `fit` — is caught by sklearn itself, reported as a
`FitFailedWarning`, and scored `nan` instead of letting the exception
propagate.  `none` models a `nan` fold score; the mean of fold scores is
`nan` as soon as any fold is `nan` (and for an empty fold list). -/
def cvScoresMean (folds : List (Option ℚ)) : Option ℚ :=
  if folds.isEmpty || folds.any (fun f => f = none) then none
  else some ((folds.filterMap id).sum / folds.length)

/-- The state optuna records for one trial of the study. -/
inductive TrialState where
  | complete (score : ℚ)
  | failed
deriving DecidableEq, Repr

/-- One trial as executed by `study.optimize` (tune.py line 67): the
objective returns the mean CV score; a finite return completes the trial
with that score, while a `nan` return — a candidate whose training failed —
makes optuna mark the trial `FAILED`, recording no score for it, without
raising.  (An exception *escaping* the objective would abort the study,
since `optimize` is called with its default `catch=()`; but the claim's
failure modes are absorbed into `nan` inside `cross_val_score` and never
raise.) -/
def runTrial {α : Type} (objective : α → Option ℚ) (t : α) : TrialState :=
  match objective t with
  | some q => .complete q
  | none => .failed

/-- `study.optimize(objective, n_trials=100)`: every candidate of the fixed
trial budget is evaluated in sequence; the Bayesian sampler is abstracted as
the list of candidates it proposes. -/
def studyOptimize {α : Type} (objective : α → Option ℚ)
    (trials : List α) : List TrialState :=
  trials.map (runTrial objective)

/-- The score of a completed trial; `none` for a failed one. -/
def trialScore : TrialState → Option ℚ
  | .complete q => some q
  | .failed => none

/-- The value behind `study.best_params`: the best objective value among the
COMPLETE trials; failed trials carry no score and are never selected. -/
def bestScore (states : List TrialState) : Option ℚ :=
  (states.filterMap trialScore).max?

/-- Fold outcomes of a demonstration search: candidate `0`'s first CV fold
fails to fit (scored `nan` by `error_score=np.nan`); the other candidates'
folds fit with score `1`. -/
def demoFoldScores (n : ℕ) : List (Option ℚ) :=
  if n = 0 then [none, some 1] else [some 1, some 1]

/-- The demonstration objective: mean CV score over the candidate's folds,
exactly as tune.py's objective returns `cv_scores.mean()`. -/
def demoObjective (n : ℕ) : Option ℚ := cvScoresMean (demoFoldScores n)

/-! ## `src/serving/inference.py` — serving `predict` -/

/-- The string `predict` returns for a model output of `0`. -/
def legitimateMsg : String := "The healthcare provider is legitimate"

/-- The string `predict` returns for any nonzero model output. -/
def fraudulentMsg : String := "The healthcare provider is fraudulent"

/-- `predict` (src/serving/inference.py, lines 86–110): wraps the feature
mapping in a one-row frame, calls the loaded model (abstracted as a total
function to an integer label, the value of `int(prediction[0])`), and returns
a human-readable *string*: the label-to-text translation happens inside this
function — `result == 0` yields the "legitimate" sentence and any other
result the "fraudulent" sentence. -/
def predict (model : PyDict → ℤ) (data : PyDict) : String :=
  let result := model data
  if result = 0 then legitimateMsg else fraudulentMsg

/-- A model stub that always outputs label `0`. -/
def zeroModel : PyDict → ℤ := fun _ => 0

/-! ## `src/utils/validate_data.py` — Validator -/

/-- A pandas DataFrame as the validator reads it: a row count (the index
length; in a well-formed frame every column holds exactly `nrows` cells) and
named columns of cells. -/
structure DataFrame where
  nrows : ℕ
  cols : List (String × List Val)
deriving DecidableEq, Repr

/-- `df.columns`. -/
def colNames (df : DataFrame) : List String := df.cols.map Prod.fst

/-- `df[name]`, when the column exists. -/
def getCol (df : DataFrame) (name : String) : Option (List Val) :=
  (df.cols.find? (fun c => c.1 = name)).map (fun c => c.2)

/-- `Series.nunique()`: the number of distinct non-null values. -/
def nuniqueVals (col : List Val) : ℕ :=
  (uniqueFirst (col.filter (fun v => v ≠ .null))).length

/-- `Series.isnull().sum()`. -/
def nullCount (col : List Val) : ℕ :=
  (col.filter (fun v => v = .null)).length

/-- `(series < 0).sum()`: a null (or non-numeric) cell compares as `False`. -/
def negativeCount (col : List Val) : ℕ :=
  (col.filter (fun v =>
    match v with
    | .num q => decide (q < 0)
    | _ => false)).length

/-- One entry of a validator's `results` list (the `message` field carries
the human-readable text). -/
structure CheckResult where
  test : String
  column : Option String
  success : Bool
  message : String
deriving DecidableEq, Repr

/-- The required-column list of `validate_inpatient_data` (lines 29–40). -/
def inpatientRequiredColumns : List String :=
  ["BeneID", "ClaimID", "ClaimStartDt", "ClaimEndDt", "Provider",
   "InscClaimAmtReimbursed", "AttendingPhysician", "OperatingPhysician",
   "OtherPhysician", "AdmissionDt", "ClmAdmitDiagnosisCode",
   "DeductibleAmtPaid", "DischargeDt", "DiagnosisGroupCode",
   "ClmDiagnosisCode_1", "ClmDiagnosisCode_2", "ClmDiagnosisCode_3",
   "ClmDiagnosisCode_4", "ClmDiagnosisCode_5", "ClmDiagnosisCode_6",
   "ClmDiagnosisCode_7", "ClmDiagnosisCode_8", "ClmDiagnosisCode_9",
   "ClmDiagnosisCode_10", "ClmProcedureCode_1", "ClmProcedureCode_2",
   "ClmProcedureCode_3", "ClmProcedureCode_4", "ClmProcedureCode_5",
   "ClmProcedureCode_6"]

/-- The `column_exists` check appended for one required column. -/
def existsCheck (df : DataFrame) (col : String) : CheckResult :=
  let success := decide (col ∈ colNames df)
  { test := "column_exists", column := some col, success := success
    message := if success then "Column " ++ col ++ " exists"
               else "Missing column: " ++ col }

/-- The `unique_values` check on `ClaimID`, appended only when the column is
present (`if 'ClaimID' in df.columns`, line 52). -/
def claimIdUniqueBlock (df : DataFrame) : List CheckResult :=
  match getCol df "ClaimID" with
  | none => []
  | some c =>
    [{ test := "unique_values", column := some "ClaimID"
       success := decide (nuniqueVals c = df.nrows)
       message := "ClaimID unique: " ++ toString (nuniqueVals c) ++ "/"
                    ++ toString df.nrows }]

/-- The `not_null` checks (lines 62–72), one per listed column that is
present in the frame. -/
def notNullBlock (df : DataFrame) (notNullCols : List String) :
    List CheckResult :=
  notNullCols.filterMap (fun col =>
    (getCol df col).map (fun c =>
      { test := "not_null", column := some col
        success := decide (nullCount c = 0)
        message := col ++ " nulls: " ++ toString (nullCount c) }))

/-- The `positive_value` check on `InscClaimAmtReimbursed`, appended only
when the column is present (lines 75–83). -/
def positiveBlock (df : DataFrame) : List CheckResult :=
  match getCol df "InscClaimAmtReimbursed" with
  | none => []
  | some c =>
    [{ test := "positive_value", column := some "InscClaimAmtReimbursed"
       success := decide (negativeCount c = 0)
       message := "Negative amounts: " ++ toString (negativeCount c) }]

/-- The unconditional `row_count` check (lines 86–91). -/
def rowCountCheck (df : DataFrame) : CheckResult :=
  { test := "row_count", column := none, success := decide (0 < df.nrows)
    message := "Row count: " ++ toString df.nrows }

/-- The full `results` list `validate_inpatient_data` accumulates, in
program order. -/
def inpatientChecks (df : DataFrame) : List CheckResult :=
  (inpatientRequiredColumns.map (existsCheck df))
    ++ claimIdUniqueBlock df
    ++ notNullBlock df
      ["ClaimID", "BeneID", "Provider", "ClaimStartDt", "ClaimEndDt",
       "AdmissionDt", "DischargeDt"]
    ++ positiveBlock df
    ++ [rowCountCheck df]

/-- The validation report `_build_report` assembles (lines 363–383). -/
structure Report where
  dataset : String
  success : Bool
  total_checks : ℕ
  passed : ℕ
  failed : ℕ
  failed_tests : List CheckResult
  row_count : ℕ
  column_count : ℕ
deriving DecidableEq, Repr

/-- `_build_report`: summarises the results; when `raise_on_fail` is set and
a check failed it raises a `ValueError` (modelled as `.error`) instead of
returning the report. -/
def buildReport (datasetName : String) (df : DataFrame)
    (results : List CheckResult) (raiseOnFail : Bool) :
    Except String Report :=
  let failedList := results.filter (fun r => !r.success)
  if (!results.all (fun r => r.success)) && raiseOnFail then
    .error ("Validation failed for " ++ datasetName)
  else
    .ok { dataset := datasetName
          success := results.all (fun r => r.success)
          total_checks := results.length
          passed := (results.filter (fun r => r.success)).length
          failed := failedList.length
          failed_tests := failedList
          row_count := df.nrows
          column_count := df.cols.length }

/-- `validate_inpatient_data` (src/utils/validate_data.py, lines 16–93). -/
def validate_inpatient_data (df : DataFrame) (raiseOnFail : Bool := false) :
    Except String Report :=
  buildReport "inpatient" df (inpatientChecks df) raiseOnFail

/-! ## Concrete sample data used by counterexamples and witnesses -/

/-- A beneficiary row whose indicator fields are already raw-coded and whose
gender/race are `1` (Male / White). -/
def sampleBeneRow : BeneRow :=
  { chronicConds := [.num 1, .num 2], renal := .str "0",
    gender := .num 1, race := .num 1, dummyCols := [] }

/-- A beneficiary row whose gender and race codes lie outside the fixed
category sets. -/
def outOfSetBeneRow : BeneRow :=
  { chronicConds := [.num 1, .num 1], renal := .str "Y",
    gender := .num 9, race := .num 9, dummyCols := [] }

/-- An inpatient claims row as read from the raw inpatient table (neither
source-type column exists there). -/
def sampleInClaim : ClaimsRow :=
  { rest := [("ClaimID", .str "C1")], claimStart := some 0, claimEnd := some 3,
    admission := some 0, discharge := some 2,
    isInpatient := none, isOutpatient := none }

/-- An outpatient claims row as read from the raw outpatient table. -/
def sampleOutClaim : ClaimsRow :=
  { rest := [("ClaimID", .str "C2")], claimStart := some 5, claimEnd := some 5,
    admission := none, discharge := none,
    isInpatient := none, isOutpatient := none }

/-- A merged claim row whose `BeneID` is missing. -/
def noBeneRow : MergedRow :=
  { provider := "PRV1", beneId := none, claimId := some "CLM1", amount := 10,
    isInpatient := some true, isOutpatient := none,
    hospitalStayDays := some 3, stayVsClaimDiff := none }

/-- A merged claim row with every key present. -/
def oneClaimRow : MergedRow :=
  { provider := "PRV2", beneId := some "BENE1", claimId := some "CLM2",
    amount := 100, isInpatient := none, isOutpatient := some true,
    hospitalStayDays := none, stayVsClaimDiff := none }

/-- Two claims whose diagnosis and physician codes are each unique, with the
code `zz` encountered before `aa`. -/
def tcRowsSample : List TCRow :=
  [{ claimId := some "C1", admitDiagnosis := some "zz",
     attending := some "zz", operating := some "zz" },
   { claimId := some "C2", admitDiagnosis := some "aa",
     attending := some "aa", operating := some "aa" }]

/-- Three claims whose physician/diagnosis counts are tie-free: `bb` appears
twice, `aa` once. -/
def tcRowsDistinct : List TCRow :=
  [{ claimId := some "C1", admitDiagnosis := some "bb",
     attending := some "bb", operating := some "bb" },
   { claimId := some "C2", admitDiagnosis := some "bb",
     attending := some "bb", operating := some "bb" },
   { claimId := some "C3", admitDiagnosis := some "aa",
     attending := some "aa", operating := some "aa" }]

/-! ## Supporting lemmas -/

theorem mem_uniqueFirst {α : Type} [DecidableEq α] :
    ∀ (l : List α) (a : α), a ∈ uniqueFirst l ↔ a ∈ l := by
  intro l
  induction l with
  | nil => simp [uniqueFirst]
  | cons b t ih =>
    intro a
    rw [uniqueFirst]
    simp only [List.mem_cons]
    constructor
    · rintro (rfl | h)
      · exact Or.inl rfl
      · exact Or.inr ((ih a).mp (List.mem_of_mem_filter h))
    · rintro (rfl | h)
      · exact Or.inl rfl
      · by_cases hab : a = b
        · exact Or.inl hab
        · exact Or.inr
            (List.mem_filter.mpr ⟨(ih a).mpr h, by simpa using hab⟩)

theorem uniqueFirst_nodup {α : Type} [DecidableEq α] :
    ∀ (l : List α), (uniqueFirst l).Nodup := by
  intro l
  induction l with
  | nil => simp [uniqueFirst]
  | cons b t ih =>
    rw [uniqueFirst]
    refine List.nodup_cons.mpr ⟨fun hmem => ?_, ih.filter _⟩
    have := List.mem_filter.mp hmem
    simp at this

/-- Two arrangements of the same elements that are both sorted by descending
count are equal when the counts are tie-free on those elements: a
descending-count sort — even an unstable one — is deterministic exactly in
the absence of ties. -/
theorem sorted_perm_unique {α : Type} (cnt : α → ℕ) :
    ∀ (l₁ l₂ : List α), l₁.Perm l₂ → l₁.Sorted (countDescLe cnt) →
      l₂.Sorted (countDescLe cnt) →
      (∀ x ∈ l₁, ∀ y ∈ l₁, cnt x = cnt y → x = y) → l₁ = l₂ := by
  intro l₁
  induction l₁ with
  | nil =>
    intro l₂ hperm _ _ _
    exact hperm.nil_eq
  | cons a t ih =>
    intro l₂ hperm hs₁ hs₂ hinj
    cases l₂ with
    | nil => exact absurd hperm.symm.nil_eq (by simp)
    | cons b t₂ =>
      have hab : a = b := by
        by_contra hne
        have hbt : b ∈ t := by
          rcases List.mem_cons.mp
              (hperm.mem_iff.mpr (List.mem_cons_self b t₂)) with e | h
          · exact absurd e.symm hne
          · exact h
        have hat₂ : a ∈ t₂ := by
          rcases List.mem_cons.mp
              (hperm.mem_iff.mp (List.mem_cons_self a t)) with e | h
          · exact absurd e hne
          · exact h
        have h1 : cnt b ≤ cnt a := (List.sorted_cons.mp hs₁).1 b hbt
        have h2 : cnt a ≤ cnt b := (List.sorted_cons.mp hs₂).1 a hat₂
        exact hne (hinj a (by simp) b (List.mem_cons_of_mem _ hbt)
          (Nat.le_antisymm h2 h1))
      subst hab
      rw [ih t₂ hperm.cons_inv (List.sorted_cons.mp hs₁).2
        (List.sorted_cons.mp hs₂).2
        (fun x hx y hy e =>
          hinj x (List.mem_cons_of_mem _ hx) y (List.mem_cons_of_mem _ hy) e)]

/-- The take-20 head of any admissible descending arrangement dominates
everything it excludes: each member's count is at least each excluded
value's count. -/
theorem isTop20_dominates {α : Type} (cnt : α → ℕ) (base out : List α)
    (h : IsTop20Output cnt base out) :
    ∀ x ∈ out, ∀ y ∈ base, y ∉ out → cnt y ≤ cnt x := by
  rcases h with ⟨arr, hperm, hs, rfl⟩
  intro x hx y hy hyn
  have hyarr : y ∈ arr := hperm.mem_iff.mpr hy
  have hsplit : y ∈ arr.take 20 ∨ y ∈ arr.drop 20 := by
    rw [← List.mem_append, List.take_append_drop]
    exact hyarr
  rcases hsplit with hyin | hyd
  · exact absurd hyin hyn
  · have hrel : countDescLe cnt x y :=
      List.Pairwise.rel_of_mem_take_of_mem_drop hs hx hyd
    exact hrel

/-- A list sorted by the lexicographic (count descending, index ascending)
order is in particular sorted by descending count. -/
theorem sorted_countDescIdxLe_weaken {α : Type} (cnt idx : α → ℕ)
    {l : List α} (h : l.Sorted (countDescIdxLe cnt idx)) :
    l.Sorted (countDescLe cnt) := by
  refine List.Pairwise.imp ?_ h
  intro a b hab
  rcases hab with hlt | ⟨heq, _⟩
  · exact Nat.le_of_lt hlt
  · exact Nat.le_of_eq heq.symm

/-- When the counts on `base` are tie-free, every admissible top-20 output
is the same list: the take-20 of the lexicographic ranking (for any
tie-break index function, which is then irrelevant). -/
theorem isTop20_unique_of_tiefree {α : Type} [DecidableEq α]
    (cnt idx : α → ℕ) (base out : List α)
    (h : IsTop20Output cnt base out)
    (hinj : ∀ x ∈ base, ∀ y ∈ base, cnt x = cnt y → x = y) :
    out = (List.insertionSort (countDescIdxLe cnt idx) base).take 20 := by
  rcases h with ⟨arr, hperm, hs, rfl⟩
  have hperm2 : arr.Perm (List.insertionSort (countDescIdxLe cnt idx) base) :=
    hperm.trans (List.perm_insertionSort _ _).symm
  have hs2 : (List.insertionSort (countDescIdxLe cnt idx) base).Sorted
      (countDescLe cnt) :=
    sorted_countDescIdxLe_weaken cnt idx (List.sorted_insertionSort _ _)
  have hinj' : ∀ x ∈ arr, ∀ y ∈ arr, cnt x = cnt y → x = y := fun x hx y hy e =>
    hinj x (hperm.mem_iff.mp hx) y (hperm.mem_iff.mp hy) e
  rw [sorted_perm_unique cnt arr _ hperm2 hs hs2 hinj']

/-! ## Claim C5 — failing tuning trials -/

/-- C5, counterexample: the claim says a trial whose training fails is
"assigned a penalizing low score".  On a concrete 2-trial search whose first
candidate's fit fails, the failure is absorbed into a `nan` objective value
and optuna marks that trial `FAILED`: the trial is recorded with *no score
at all* — there is no score value `q` its state carries — while the second
trial still runs. -/
theorem tune_trial_failure_no_score_cex :
    studyOptimize demoObjective [0, 1] = [.failed, .complete 1] ∧
      trialScore TrialState.failed = none ∧
      ∀ q : ℚ, TrialState.failed ≠ TrialState.complete q := by
  refine ⟨?_, rfl, fun q h => TrialState.noConfusion h⟩
  have h1 : demoObjective 1 = some 1 := by
    show cvScoresMean [some 1, some 1] = some 1
    unfold cvScoresMean
    rw [if_neg (by decide)]
    norm_num [List.filterMap]
  show [runTrial demoObjective 0, runTrial demoObjective 1] = _
  rw [show runTrial demoObjective 0 = .failed from rfl,
    show runTrial demoObjective 1 = .complete 1 from by
      unfold runTrial; rw [h1]]

/-- C5, amended: a candidate whose training fails does not abort the search
and is not scored: `cross_val_score`'s default `error_score=np.nan` absorbs
the fit failure into `nan` fold scores, the objective returns a `nan`
mean, and optuna marks exactly that trial `FAILED` while the rest of the
fixed trial budget is still evaluated (the result has one state per
candidate); the failed trial carries no score, so the best value always
comes from a candidate whose training succeeded — which is how the failure
is penalized, rather than by a low score. -/
theorem tune_trial_failure_absorbed {α : Type} (objective : α → Option ℚ)
    (pre post : List α) (t : α) (ht : objective t = none) :
    studyOptimize objective (pre ++ t :: post)
        = studyOptimize objective pre
            ++ TrialState.failed :: studyOptimize objective post
      ∧ (studyOptimize objective (pre ++ t :: post)).length
          = pre.length + 1 + post.length
      ∧ ∀ s, bestScore (studyOptimize objective (pre ++ t :: post)) = some s →
          ∃ u ∈ pre ++ t :: post, objective u = some s := by
  refine ⟨?_, ?_, ?_⟩
  · unfold studyOptimize
    rw [List.map_append, List.map_cons,
      show runTrial objective t = .failed from by unfold runTrial; rw [ht]]
  · unfold studyOptimize
    rw [List.length_map, List.length_append, List.length_cons]
    omega
  · intro s hs
    unfold bestScore studyOptimize at hs
    rw [List.filterMap_map] at hs
    have hcomp : trialScore ∘ runTrial objective = objective := by
      funext u
      rcases hu : objective u with _ | q <;>
        simp [Function.comp, runTrial, trialScore, hu]
    rw [hcomp] at hs
    have hmem := List.max?_mem (fun a b => max_choice a b) hs
    rcases List.mem_filterMap.mp hmem with ⟨u, hu, he⟩
    exact ⟨u, hu, he⟩

/-- Witness for `tune_trial_failure_absorbed` at a concrete 3-trial search
whose middle candidate fails. -/
theorem tune_trial_failure_absorbed_witness :
    demoObjective 0 = none ∧
      (studyOptimize demoObjective ([1] ++ 0 :: [2])
          = studyOptimize demoObjective [1]
              ++ TrialState.failed :: studyOptimize demoObjective [2]
        ∧ (studyOptimize demoObjective ([1] ++ 0 :: [2])).length
            = [1].length + 1 + [2].length
        ∧ ∀ s, bestScore (studyOptimize demoObjective ([1] ++ 0 :: [2]))
              = some s →
            ∃ u ∈ [1] ++ 0 :: [2], demoObjective u = some s) :=
  ⟨rfl, tune_trial_failure_absorbed demoObjective [1] [2] 0 rfl⟩

/-! ## Claim C9 — serving `predict` output -/

/-- C9, counterexample: the claim says the core `predict` returns a value in
0 or 1 and the text translation happens outside it; the repository's
`predict` returns a full sentence — at a concrete model and feature vector
the result is the "legitimate" sentence, which is neither the string nor the
number 0 or 1. -/
theorem predict_returns_sentence_cex :
    predict zeroModel [] = legitimateMsg ∧
      ¬(predict zeroModel [] = "0" ∨ predict zeroModel [] = "1") := by
  constructor
  · rfl
  · decide

/-- C9, amended: `predict` returns one of the two display sentences, and the
label-to-text translation happens inside it: a model output of `0` yields the
"legitimate" sentence and any nonzero output the "fraudulent" sentence. -/
theorem predict_translates_inside (model : PyDict → ℤ) (data : PyDict) :
    (predict model data = legitimateMsg ∨ predict model data = fraudulentMsg)
      ∧ (model data = 0 → predict model data = legitimateMsg)
      ∧ (model data ≠ 0 → predict model data = fraudulentMsg) := by
  unfold predict
  by_cases h : model data = 0 <;> simp [h]

/-- Witness for `predict_translates_inside` at the constant-zero model. -/
theorem predict_translates_inside_witness :
    (predict zeroModel [] = legitimateMsg ∨ predict zeroModel [] = fraudulentMsg)
      ∧ (zeroModel [] = 0 → predict zeroModel [] = legitimateMsg)
      ∧ (zeroModel [] ≠ 0 → predict zeroModel [] = fraudulentMsg) :=
  predict_translates_inside zeroModel []

/-! ## Claim C3 — BeneficiaryProcessor recoding idempotence -/

theorem replaceChronic_idem (v : Val) :
    replaceChronic (replaceChronic v) = replaceChronic v := by
  by_cases h1 : v = .num 1
  · rw [h1]; decide
  · by_cases h2 : v = .num 2
    · rw [h2]; decide
    · have e : replaceChronic v = v := by
        unfold replaceChronic; rw [if_neg h1, if_neg h2]
      rw [e, e]

theorem mapRenal_mapRenal (v : Val) : mapRenal (mapRenal v) = Val.null := by
  by_cases h1 : v = .str "0"
  · rw [h1]; decide
  · by_cases h2 : v = .str "Y"
    · rw [h2]; decide
    · have e : mapRenal v = Val.null := by
        unfold mapRenal; rw [if_neg h1, if_neg h2]
      rw [e]; decide

/-- C3, counterexample: on a beneficiary with raw renal indicator `"0"`, one
application of `process_beneficiary_data` recodes it to `0`, but a second
application maps the numeric `0` through the string-keyed dict
`{'0': 0, 'Y': 1}` again and produces a missing value, not `0`. -/
theorem beneficiary_recode_not_idempotent_cex :
    (process_beneficiary_data [sampleBeneRow]).map (fun r => r.renal)
        = [Val.num 0] ∧
      (process_beneficiary_data (process_beneficiary_data [sampleBeneRow])).map
          (fun r => r.renal)
        = [Val.null] ∧
      Val.null ≠ Val.num 0 := by
  refine ⟨by decide, by decide, by decide⟩

/-- C3, amended: a second application of `process_beneficiary_data` leaves
the chronic-condition columns unchanged (the `replace` recode is idempotent),
but wipes the renal-disease column to all-missing: the `map` recode sends
every value outside the raw string domain — including its own outputs `0`
and `1` — to `NaN`. -/
theorem beneficiary_recode_partial_idempotence (tbl : List BeneRow) :
    (process_beneficiary_data (process_beneficiary_data tbl)).map
        (fun r => r.chronicConds)
      = (process_beneficiary_data tbl).map (fun r => r.chronicConds)
    ∧ (process_beneficiary_data (process_beneficiary_data tbl)).map
        (fun r => r.renal)
      = (process_beneficiary_data tbl).map (fun _ => Val.null) := by
  constructor
  · simp [process_beneficiary_data, List.map_map, Function.comp,
      replaceChronic_idem]
  · simp [process_beneficiary_data, List.map_map, Function.comp,
      mapRenal_mapRenal]

/-! ## Claim C4 — one-hot schema stability -/

/-- C4, counterexample: the claim says the one-hot encoding yields a fixed
schema of two gender and five race indicator columns regardless of which
categories appear; on a one-row batch with gender 1 and race 1,
`pd.get_dummies` discovers only the categories present and produces exactly
one gender column and one race column — `Gender_Female` is absent. -/
theorem onehot_schema_not_fixed_cex :
    genderDummyCols [sampleBeneRow] = ["Gender_Male"] ∧
      "Gender_Female" ∉ genderDummyCols [sampleBeneRow] ∧
      raceDummyCols [sampleBeneRow] = ["Race_White"] := by
  refine ⟨by decide, by decide, by decide⟩

/-- C4, amended: the indicator columns are discovered dynamically from the
batch, so the schema varies with the categories present; but a column name
outside the fixed seven never appears (the code-to-name maps have fixed
ranges), and a row whose gender or race code lies outside the fixed set gets
value `0` in every indicator column that is generated. -/
theorem onehot_dynamic_but_bounded (tbl : List BeneRow) :
    (∀ c ∈ genderDummyCols tbl, c ∈ ["Gender_Female", "Gender_Male"])
      ∧ (∀ c ∈ raceDummyCols tbl,
          c ∈ ["Race_White", "Race_Black", "Race_Other", "Race_Unknown",
               "Race_Hispanic"])
      ∧ (∀ r ∈ tbl, mapGender r.gender = none →
          ∀ c ∈ dummyCategories (tbl.map (fun x => mapGender x.gender)),
            dummyVal c (mapGender r.gender) = Val.num 0)
      ∧ (∀ r ∈ tbl, mapRace r.race = none →
          ∀ c ∈ dummyCategories (tbl.map (fun x => mapRace x.race)),
            dummyVal c (mapRace r.race) = Val.num 0) := by
  refine ⟨?_, ?_, ?_, ?_⟩
  · intro c hc
    unfold genderDummyCols at hc
    rcases List.mem_map.mp hc with ⟨cat, hcat, rfl⟩
    unfold dummyCategories at hcat
    have hmem := (mem_uniqueFirst _ _).mp ((List.mem_insertionSort _).mp hcat)
    rcases List.mem_filterMap.mp hmem with ⟨o, ho, hid⟩
    rcases List.mem_map.mp ho with ⟨r, _, rfl⟩
    unfold mapGender at hid
    split_ifs at hid
    · obtain rfl : "Male" = cat := by simpa using hid
      decide
    · obtain rfl : "Female" = cat := by simpa using hid
      decide
    · simp at hid
  · intro c hc
    unfold raceDummyCols at hc
    rcases List.mem_map.mp hc with ⟨cat, hcat, rfl⟩
    unfold dummyCategories at hcat
    have hmem := (mem_uniqueFirst _ _).mp ((List.mem_insertionSort _).mp hcat)
    rcases List.mem_filterMap.mp hmem with ⟨o, ho, hid⟩
    rcases List.mem_map.mp ho with ⟨r, _, rfl⟩
    unfold mapRace at hid
    split_ifs at hid
    · obtain rfl : "White" = cat := by simpa using hid
      decide
    · obtain rfl : "Black" = cat := by simpa using hid
      decide
    · obtain rfl : "Other" = cat := by simpa using hid
      decide
    · obtain rfl : "Unknown" = cat := by simpa using hid
      decide
    · obtain rfl : "Hispanic" = cat := by simpa using hid
      decide
    · simp at hid
  · intro r _ hnone c _
    unfold dummyVal
    rw [hnone]
    rfl
  · intro r _ hnone c _
    unfold dummyVal
    rw [hnone]
    rfl

/-- Witness for `onehot_dynamic_but_bounded` on a batch holding one in-set
and one out-of-set beneficiary. -/
theorem onehot_dynamic_but_bounded_witness :
    (∀ c ∈ genderDummyCols [sampleBeneRow, outOfSetBeneRow],
        c ∈ ["Gender_Female", "Gender_Male"])
      ∧ (∀ c ∈ raceDummyCols [sampleBeneRow, outOfSetBeneRow],
          c ∈ ["Race_White", "Race_Black", "Race_Other", "Race_Unknown",
               "Race_Hispanic"])
      ∧ (∀ r ∈ [sampleBeneRow, outOfSetBeneRow], mapGender r.gender = none →
          ∀ c ∈ dummyCategories
              ([sampleBeneRow, outOfSetBeneRow].map (fun x => mapGender x.gender)),
            dummyVal c (mapGender r.gender) = Val.num 0)
      ∧ (∀ r ∈ [sampleBeneRow, outOfSetBeneRow], mapRace r.race = none →
          ∀ c ∈ dummyCategories
              ([sampleBeneRow, outOfSetBeneRow].map (fun x => mapRace x.race)),
            dummyVal c (mapRace r.race) = Val.num 0) :=
  onehot_dynamic_but_bounded [sampleBeneRow, outOfSetBeneRow]

/-! ## Claim C8 — source-type flags on the concatenated claims table -/

/-- C8, counterexample: the claim says both source-type columns hold boolean
values (never missing) on every output row; on a concrete one-row inpatient
table and one-row outpatient table, the inpatient output row has
`Is_Outpatient` missing (the column does not exist in the inpatient input, so
`pd.concat` fills it with `NaN`), not `False`. -/
theorem claims_flags_missing_cex :
    (process_claims_data [sampleInClaim] [sampleOutClaim]).map
        (fun r => (r.isInpatient, r.isOutpatient))
      = [(some true, none), (none, some true)] ∧
      (none : Option Bool) ≠ some false := by
  refine ⟨by decide, by decide⟩

/-- C8, amended: every output row of `process_claims_data` carries
`Is_Inpatient = True` with `Is_Outpatient` missing when it came from the
inpatient table, and the reverse when it came from the outpatient table (the
raw inputs have neither column); in particular no row carries boolean values
in both columns.  The missing flags are only turned into `False` later, by
the `fillna` preamble of `aggregate_claims_features`. -/
theorem claims_flags_tagged (ins outs : List ClaimsRow)
    (hin : ∀ r ∈ ins, r.isOutpatient = none)
    (hout : ∀ r ∈ outs, r.isInpatient = none) :
    ∀ r ∈ process_claims_data ins outs,
      (r.isInpatient = some true ∧ r.isOutpatient = none)
        ∨ (r.isInpatient = none ∧ r.isOutpatient = some true) := by
  intro r hr
  rcases List.mem_append.mp hr with h | h
  · rcases List.mem_map.mp h with ⟨r0, hr0, rfl⟩
    exact Or.inl ⟨rfl, hin r0 hr0⟩
  · rcases List.mem_map.mp h with ⟨r0, hr0, rfl⟩
    exact Or.inr ⟨hout r0 hr0, rfl⟩

/-- Witness for `claims_flags_tagged` at the one-row sample tables. -/
theorem claims_flags_tagged_witness :
    (∀ r ∈ [sampleInClaim], r.isOutpatient = none) ∧
      (∀ r ∈ [sampleOutClaim], r.isInpatient = none) ∧
      ∀ r ∈ process_claims_data [sampleInClaim] [sampleOutClaim],
        (r.isInpatient = some true ∧ r.isOutpatient = none)
          ∨ (r.isInpatient = none ∧ r.isOutpatient = some true) :=
  ⟨by decide, by decide,
    claims_flags_tagged [sampleInClaim] [sampleOutClaim]
      (by decide) (by decide)⟩

/-! ## Claim C6 — top-20 reference-set tie-breaking -/

/-- C6, counterexample: the claim says all three reference sets break count
ties by first-encountered order.  On two claims whose diagnosis codes `zz`
then `aa` each appear once, the ranking `["aa", "zz"]` is an admissible
output of the diagnosis path — `groupby(sort=True)` has already reordered
the tied keys by ascending code value, and at this size numpy's introsort is
the (stable) insertion sort, so it is in fact the output the program
deterministically produces — while the claimed first-encounter ranking is
`["zz", "aa"]`. -/
theorem top_codes_tie_break_cex :
    IsTopDiagnosis tcRowsSample ["aa", "zz"] ∧
      specTopDiagnosis tcRowsSample = ["zz", "aa"] ∧
      (["aa", "zz"] : List String) ≠ ["zz", "aa"] := by
  refine ⟨⟨["aa", "zz"], by decide, by decide, by decide⟩, by decide, by decide⟩

/-- C6, amended: the claimed first-encounter tie-break is not guaranteed —
pandas documents the descending count sort as unstable, and even in its
deterministic small-array regime the diagnosis path breaks ties by ascending
code value (`groupby` key order), not encounter order (see the
counterexample).  What the program does guarantee, for each of the three
reference sets: every admissible output dominates what it excludes (each
member's claim count is at least each excluded value's count), and whenever
the relevant counts are tie-free the output is uniquely determined and
equals the specification's ranking. -/
theorem top_codes_tie_break (rows : List TCRow) :
    (∀ out, IsTopAttending rows out →
        (∀ x ∈ out, ∀ y ∈ uniqueFirst (attendingVals rows), y ∉ out →
            (attendingVals rows).count y ≤ (attendingVals rows).count x)
          ∧ ((∀ x ∈ uniqueFirst (attendingVals rows),
                ∀ y ∈ uniqueFirst (attendingVals rows),
                (attendingVals rows).count x = (attendingVals rows).count y →
                  x = y) →
              out = specTopAttending rows))
      ∧ (∀ out, IsTopOperating rows out →
          (∀ x ∈ out, ∀ y ∈ uniqueFirst (operatingVals rows), y ∉ out →
              (operatingVals rows).count y ≤ (operatingVals rows).count x)
            ∧ ((∀ x ∈ uniqueFirst (operatingVals rows),
                  ∀ y ∈ uniqueFirst (operatingVals rows),
                  (operatingVals rows).count x = (operatingVals rows).count y →
                    x = y) →
                out = specTopOperating rows))
      ∧ (∀ out, IsTopDiagnosis rows out →
          (∀ x ∈ out, ∀ y ∈ diagnosisKeys rows, y ∉ out →
              claimCountFor rows y ≤ claimCountFor rows x)
            ∧ ((∀ x ∈ diagnosisKeys rows, ∀ y ∈ diagnosisKeys rows,
                  claimCountFor rows x = claimCountFor rows y → x = y) →
                out = specTopDiagnosis rows)) := by
  refine ⟨?_, ?_, ?_⟩
  · intro out hout
    refine ⟨isTop20_dominates _ _ out hout, ?_⟩
    intro hinj
    rw [isTop20_unique_of_tiefree (fun v => (attendingVals rows).count v)
      (fun v => (attendingVals rows).indexOf v) _ out hout hinj]
    unfold specTopAttending specTop20 attendingVals
    dsimp only
  · intro out hout
    refine ⟨isTop20_dominates _ _ out hout, ?_⟩
    intro hinj
    rw [isTop20_unique_of_tiefree (fun v => (operatingVals rows).count v)
      (fun v => (operatingVals rows).indexOf v) _ out hout hinj]
    unfold specTopOperating specTop20 operatingVals
    dsimp only
  · intro out hout
    refine ⟨isTop20_dominates _ _ out hout, ?_⟩
    intro hinj
    rw [isTop20_unique_of_tiefree (claimCountFor rows)
      (fun v => (diagnosisVals rows).indexOf v) _ out hout hinj]
    have hperm : (List.insertionSort
          (countDescIdxLe (claimCountFor rows)
            (fun v => (diagnosisVals rows).indexOf v)) (diagnosisKeys rows)).Perm
        (List.insertionSort
          (countDescIdxLe (claimCountFor rows)
            (fun v => (diagnosisVals rows).indexOf v))
          (uniqueFirst (diagnosisVals rows))) := by
      refine (List.perm_insertionSort _ _).trans ?_
      unfold diagnosisKeys
      exact (List.perm_insertionSort _ _).trans
        (List.perm_insertionSort _ _).symm
    have hinj' : ∀ x ∈ List.insertionSort
        (countDescIdxLe (claimCountFor rows)
          (fun v => (diagnosisVals rows).indexOf v)) (diagnosisKeys rows),
        ∀ y ∈ List.insertionSort
          (countDescIdxLe (claimCountFor rows)
            (fun v => (diagnosisVals rows).indexOf v)) (diagnosisKeys rows),
        claimCountFor rows x = claimCountFor rows y → x = y :=
      fun x hx y hy e =>
        hinj x ((List.mem_insertionSort _).mp hx)
          y ((List.mem_insertionSort _).mp hy) e
    rw [sorted_perm_unique (claimCountFor rows) _ _ hperm
      (sorted_countDescIdxLe_weaken _ _ (List.sorted_insertionSort _ _))
      (sorted_countDescIdxLe_weaken _ _ (List.sorted_insertionSort _ _))
      hinj']
    unfold specTopDiagnosis specTop20 diagnosisVals
    dsimp only

/-- Witness for `top_codes_tie_break` at a three-claim population with
tie-free counts, exercised on its unique admissible attending output. -/
theorem top_codes_tie_break_witness :
    IsTopAttending tcRowsDistinct ["bb", "aa"] ∧
      ((∀ x ∈ ["bb", "aa"], ∀ y ∈ uniqueFirst (attendingVals tcRowsDistinct),
          y ∉ ["bb", "aa"] →
            (attendingVals tcRowsDistinct).count y
              ≤ (attendingVals tcRowsDistinct).count x)
        ∧ (["bb", "aa"] : List String) = specTopAttending tcRowsDistinct) := by
  have hout : IsTopAttending tcRowsDistinct ["bb", "aa"] :=
    ⟨["bb", "aa"], by decide, by decide, by decide⟩
  have h := (top_codes_tie_break tcRowsDistinct).1 ["bb", "aa"] hout
  exact ⟨hout, h.1, h.2 (by decide)⟩

/-! ## Claims C1 and C2 — Aggregator ratio and std fill -/

/-- Every row of the aggregated table is the aggregate of a nonempty
provider group of the (fill-treated) input. -/
theorem mem_aggregate (rows : List MergedRow) (f : ProviderFeatures)
    (hf : f ∈ aggregate_claims_features rows) :
    ∃ p, f = providerAggRow p
        ((rows.map fillMergedRow).filter (fun r => r.provider = p))
      ∧ ∃ r ∈ rows, r.provider = p := by
  unfold aggregate_claims_features at hf
  dsimp only at hf
  rcases List.mem_map.mp hf with ⟨p, hp, rfl⟩
  refine ⟨p, rfl, ?_⟩
  have hp' := (mem_uniqueFirst _ _).mp ((List.mem_insertionSort _).mp hp)
  rcases List.mem_map.mp hp' with ⟨r', hr', he⟩
  rcases List.mem_map.mp hr' with ⟨r0, hr0, rfl⟩
  exact ⟨r0, hr0, he⟩

/-- C1, counterexample: the claim says `count_unique_beneficiary > 0` for
every produced row and that a zero denominator would fail loudly; on a
one-claim table whose `BeneID` is missing, `nunique` is `0` and the division
silently produces an infinite `claims_per_bene` — a row with a zero
denominator appears and no error is raised. -/
theorem claims_per_bene_zero_denominator_cex :
    (aggregate_claims_features [noBeneRow]).map
        (fun f => (f.count_unique_beneficiary, f.claims_per_bene))
      = [(0, FloatVal.inf)] ∧
      ¬ (0 : ℕ) > 0 := by
  refine ⟨by decide, by decide⟩

/-- C1, amended: on any merged table in which every claim row carries a
beneficiary id and a claim id (the intended pipeline state), every aggregated
row has a positive beneficiary count, a positive claim count, and
`claims_per_bene` equal to the finite ratio
`count_unique_claims / count_unique_beneficiary`.  When a group's `BeneID`
values are all missing, the implementation does not fail loudly: it silently
emits `inf` (see the counterexample). -/
theorem claims_per_bene_ratio (rows : List MergedRow)
    (hb : ∀ r ∈ rows, r.beneId ≠ none)
    (hc : ∀ r ∈ rows, r.claimId ≠ none) :
    ∀ f ∈ aggregate_claims_features rows,
      0 < f.count_unique_beneficiary
        ∧ 0 < f.count_unique_claims
        ∧ f.claims_per_bene
            = .fin ((f.count_unique_claims : ℚ) / (f.count_unique_beneficiary : ℚ)) := by
  intro f hf
  rcases mem_aggregate rows f hf with ⟨p, rfl, r0, hr0, hrp⟩
  have hmem : fillMergedRow r0
      ∈ (rows.map fillMergedRow).filter (fun r => r.provider = p) := by
    refine List.mem_filter.mpr ⟨List.mem_map_of_mem _ hr0, ?_⟩
    simpa [fillMergedRow] using hrp
  set g := (rows.map fillMergedRow).filter (fun r => r.provider = p) with hg
  have hbene : 0 < (uniqueFirst (g.filterMap (fun r => r.beneId))).length := by
    rcases hb' : (fillMergedRow r0).beneId with _ | b
    · exact absurd (by simpa [fillMergedRow] using hb') (hb r0 hr0)
    · have hmemb : b ∈ uniqueFirst (g.filterMap (fun r => r.beneId)) :=
        (mem_uniqueFirst _ b).mpr
          (List.mem_filterMap.mpr ⟨fillMergedRow r0, hmem, hb'⟩)
      exact List.length_pos.mpr (List.ne_nil_of_mem hmemb)
  have hclaim : 0 < (g.filterMap (fun r => r.claimId)).length := by
    rcases hc' : (fillMergedRow r0).claimId with _ | c
    · exact absurd (by simpa [fillMergedRow] using hc') (hc r0 hr0)
    · exact List.length_pos.mpr
        (List.ne_nil_of_mem (List.mem_filterMap.mpr ⟨fillMergedRow r0, hmem, hc'⟩))
  refine ⟨hbene, hclaim, ?_⟩
  unfold providerAggRow
  dsimp only
  unfold floatDiv
  rw [if_neg (by exact_mod_cast Nat.pos_iff_ne_zero.mp hbene)]

/-- Witness for `claims_per_bene_ratio` at a one-claim table. -/
theorem claims_per_bene_ratio_witness :
    (∀ r ∈ [oneClaimRow], r.beneId ≠ none) ∧
      (∀ r ∈ [oneClaimRow], r.claimId ≠ none) ∧
      ∀ f ∈ aggregate_claims_features [oneClaimRow],
        0 < f.count_unique_beneficiary
          ∧ 0 < f.count_unique_claims
          ∧ f.claims_per_bene
              = .fin ((f.count_unique_claims : ℚ) / (f.count_unique_beneficiary : ℚ)) :=
  ⟨by decide, by decide,
    claims_per_bene_ratio [oneClaimRow] (by decide) (by decide)⟩

/-- C2: in the labeled table produced by `merge_provider_train` on the
Aggregator's output, `std_claim_amount` is never missing (the left-join's
gaps and the single-claim `NaN`s are both filled with `0`), and a provider
whose claim group has exactly one row has `std_claim_amount = 0`. -/
theorem std_claim_amount_filled (rows : List MergedRow)
    (prov : List ProviderRow) :
    ∀ t ∈ merge_provider_train (aggregate_claims_features rows) prov,
      t.std_claim_amount ≠ none
        ∧ ((rows.filter (fun r => r.provider = t.provider)).length = 1 →
            t.std_claim_amount = some 0) := by
  intro t ht
  rcases List.mem_map.mp ht with ⟨pr, _, rfl⟩
  dsimp only
  constructor
  · unfold fillnaQ
    exact fun h => Option.noConfusion h
  · intro hlen
    rcases hfind : (aggregate_claims_features rows).find?
        (fun x => x.provider = pr.provider) with _ | x
    · simp [hfind, fillnaQ]
    · have hx := List.mem_of_find?_eq_some hfind
      have hxp : x.provider = pr.provider := by
        simpa using List.find?_some hfind
      rcases mem_aggregate rows x hx with ⟨p, rfl, -⟩
      have hpp : p = pr.provider := hxp
      subst hpp
      have hglen :
          ((rows.map fillMergedRow).filter
              (fun r => r.provider = pr.provider)).length
            = (rows.filter (fun r => r.provider = pr.provider)).length := by
        rw [List.filter_map, List.length_map]
        rfl
      have hstd : (providerAggRow pr.provider
          ((rows.map fillMergedRow).filter
            (fun r => r.provider = pr.provider))).std_claim_amount
            = none := by
        unfold providerAggRow sampleStdSq
        dsimp only
        rw [if_pos]
        rw [List.length_map, hglen, hlen]
      simp [hfind, hstd, fillnaQ]

/-- Witness for `std_claim_amount_filled` at a one-claim provider. -/
theorem std_claim_amount_filled_witness :
    ([oneClaimRow].filter
        (fun r => r.provider = "PRV2")).length = 1 ∧
      ∀ t ∈ merge_provider_train (aggregate_claims_features [oneClaimRow])
          [{ provider := "PRV2", potentialFraud := "Yes" }],
        t.std_claim_amount ≠ none
          ∧ (([oneClaimRow].filter (fun r => r.provider = t.provider)).length = 1 →
              t.std_claim_amount = some 0) :=
  ⟨by decide,
    std_claim_amount_filled [oneClaimRow]
      [{ provider := "PRV2", potentialFraud := "Yes" }]⟩

/-! ## Claim C7 — class-imbalance weight policy -/

theorem find?_map_dictSet_self (k : String) (v : Val) :
    ∀ (d : PyDict), d.any (fun kv => kv.1 = k) = true →
      (d.map (fun kv => if kv.1 = k then (k, v) else kv)).find?
          (fun kv => kv.1 = k)
        = some (k, v) := by
  intro d
  induction d with
  | nil => intro h; simp at h
  | cons hd tl ih =>
    intro h
    by_cases hk : hd.1 = k
    · rw [List.map_cons, if_pos hk]
      exact List.find?_cons_of_pos _ (by simp)
    · rw [List.map_cons, if_neg hk,
        List.find?_cons_of_neg _ (by simp [hk])]
      refine ih ?_
      rcases List.any_eq_true.mp h with ⟨x, hx, hxk⟩
      rcases List.mem_cons.mp hx with rfl | hx'
      · exact absurd (by simpa using hxk) hk
      · exact List.any_eq_true.mpr ⟨x, hx', hxk⟩

theorem find?_map_dictSet_ne (k k' : String) (v : Val) (h : k' ≠ k) :
    ∀ (d : PyDict),
      (d.map (fun kv => if kv.1 = k then (k, v) else kv)).find?
          (fun kv => kv.1 = k')
        = d.find? (fun kv => kv.1 = k') := by
  intro d
  induction d with
  | nil => rfl
  | cons hd tl ih =>
    by_cases hk : hd.1 = k
    · rw [List.map_cons, if_pos hk,
        List.find?_cons_of_neg _ (by simpa using fun e => h e.symm),
        List.find?_cons_of_neg _ (by simp [hk]; exact fun e => h e.symm), ih]
    · rw [List.map_cons, if_neg hk]
      by_cases hk' : hd.1 = k'
      · rw [List.find?_cons_of_pos _ (by simpa using hk'),
          List.find?_cons_of_pos _ (by simpa using hk')]
      · rw [List.find?_cons_of_neg _ (by simpa using hk'),
          List.find?_cons_of_neg _ (by simpa using hk'), ih]

theorem dictGet_dictSet_self (d : PyDict) (k : String) (v : Val) :
    dictGet (dictSet d k v) k = some v := by
  unfold dictSet dictGet
  by_cases hany : d.any (fun kv => kv.1 = k) = true
  · rw [if_pos hany, find?_map_dictSet_self k v d hany]
    rfl
  · rw [if_neg hany, List.find?_append]
    have hnone : d.find? (fun kv => decide (kv.1 = k)) = none := by
      rw [List.find?_eq_none]
      intro x hx hxk
      exact hany (List.any_eq_true.mpr ⟨x, hx, hxk⟩)
    rw [hnone]
    simp

theorem dictGet_dictSet_ne (d : PyDict) (k k' : String) (v : Val)
    (h : k' ≠ k) : dictGet (dictSet d k v) k' = dictGet d k' := by
  unfold dictSet dictGet
  by_cases hany : d.any (fun kv => kv.1 = k) = true
  · rw [if_pos hany, find?_map_dictSet_ne k k' v h d]
  · rw [if_neg hany, List.find?_append]
    rcases hfd : d.find? (fun kv => decide (kv.1 = k')) with _ | x
    · rw [hfd]
      simp [show ¬ k = k' from fun e => h e.symm]
    · rw [hfd]
      simp

/-- C7: the hyperparameter dict returned by `tune_model` always contains
`scale_pos_weight`, equal to `round` of the negative-to-positive class ratio
of its training split, and `train_model` always overwrites whatever weight
the tuned parameter dict supplies with the one recomputed on its own training
split the same way. -/
theorem scale_pos_weight_recomputed (searchBest xgbParams : PyDict)
    (y₁ y₂ : List ℕ) (h₁ : y₁.count 1 ≠ 0) (h₂ : y₂.count 1 ≠ 0) :
    (∃ p, tuneBestParams searchBest y₁ = some p
        ∧ dictGet p "scale_pos_weight"
            = some (.num (roundHalfEven ((y₁.count 0 : ℚ) / (y₁.count 1 : ℚ)))))
      ∧ ∃ q, trainParams (some xgbParams) y₂ = some q
          ∧ dictGet q "scale_pos_weight"
              = some (.num (roundHalfEven ((y₂.count 0 : ℚ) / (y₂.count 1 : ℚ)))) := by
  constructor
  · refine ⟨_, by unfold tuneBestParams scalePosWeight; rw [if_neg h₁]; rfl, ?_⟩
    unfold dictUpdate
    simp only [List.foldl_cons, List.foldl_nil]
    rw [dictGet_dictSet_ne _ _ _ _ (by decide), dictGet_dictSet_self]
  · refine ⟨_, by unfold trainParams scalePosWeight; rw [if_neg h₂]; rfl, ?_⟩
    dsimp only
    rw [dictGet_dictSet_self]

/-- Witness for `scale_pos_weight_recomputed` on a balanced two-row split and
a tuned dict that tries to smuggle in a weight of `999`. -/
theorem scale_pos_weight_recomputed_witness :
    ([0, 1].count 1 ≠ 0) ∧
      ((∃ p, tuneBestParams [] [0, 1] = some p
          ∧ dictGet p "scale_pos_weight"
              = some (.num (roundHalfEven (([0, 1].count 0 : ℚ) / ([0, 1].count 1 : ℚ)))))
        ∧ ∃ q, trainParams (some [("scale_pos_weight", .num 999)]) [0, 1] = some q
            ∧ dictGet q "scale_pos_weight"
                = some (.num (roundHalfEven (([0, 1].count 0 : ℚ) / ([0, 1].count 1 : ℚ))))) :=
  ⟨by decide,
    scale_pos_weight_recomputed [] [("scale_pos_weight", .num 999)]
      [0, 1] [0, 1] (by decide) (by decide)⟩

/-! ## Claim C10 — validator guards dependent checks on column presence -/

theorem getCol_eq_none_of_not_mem (df : DataFrame) (x : String)
    (h : x ∉ colNames df) : getCol df x = none := by
  unfold getCol
  rw [(List.find?_eq_none).mpr]
  · rfl
  · intro c hc hx
    exact h (List.mem_map.mpr ⟨c, hc, by simpa using hx⟩)

theorem getCol_ne_none_of_mem (df : DataFrame) (x : String)
    (h : x ∈ colNames df) : getCol df x ≠ none := by
  intro he
  unfold getCol at he
  have hfd := Option.map_eq_none'.mp he
  rw [List.find?_eq_none] at hfd
  rcases List.mem_map.mp h with ⟨c, hc, rfl⟩
  exact hfd c hc (by simp)

theorem notNullBlock_fields (df : DataFrame) :
    ∀ (cols : List String) (c : CheckResult), c ∈ notNullBlock df cols →
      ∃ col ∈ cols, c.column = some col ∧ c.test = "not_null" ∧
        getCol df col ≠ none := by
  intro cols c hc
  rcases List.mem_filterMap.mp hc with ⟨col, hcol, hmap⟩
  rcases hg : getCol df col with _ | cv
  · rw [hg] at hmap
    exact absurd hmap (by simp)
  · rw [hg] at hmap
    refine ⟨col, hcol, ?_, ?_, by rw [hg]; exact fun e => Option.noConfusion e⟩
    · rcases Option.map_eq_some'.mp hmap with ⟨_, _, rfl⟩
      rfl
    · rcases Option.map_eq_some'.mp hmap with ⟨_, _, rfl⟩
      rfl

theorem positiveBlock_fields (df : DataFrame) :
    ∀ (c : CheckResult), c ∈ positiveBlock df →
      c.column = some "InscClaimAmtReimbursed" ∧ c.test = "positive_value" := by
  intro c hc
  unfold positiveBlock at hc
  rcases hg : getCol df "InscClaimAmtReimbursed" with _ | cv
  · rw [hg] at hc
    simp at hc
  · rw [hg] at hc
    rcases List.mem_singleton.mp hc with rfl
    exact ⟨rfl, rfl⟩

/-- C10: in `validate_inpatient_data` the dependent quality checks on a
column are performed — and counted in `total_checks`, which is the length of
the `results` list — only when the column exists.  A frame missing `ClaimID`
records exactly one failed check naming `ClaimID` (its `column_exists`
check), and no `unique_values` check appears at all (the `not_null` check on
`ClaimID` is likewise skipped); when `ClaimID` is present, exactly one
`unique_values` check appears. -/
theorem validator_guards_dependent_checks (df : DataFrame) :
    ("ClaimID" ∉ colNames df →
        ((inpatientChecks df).filter
            (fun c => c.column = some "ClaimID")).map
            (fun c => (c.test, c.success))
          = [("column_exists", false)]
        ∧ (inpatientChecks df).filter (fun c => c.test = "unique_values") = [])
      ∧ ("ClaimID" ∈ colNames df →
          ((inpatientChecks df).filter
            (fun c => c.test = "unique_values")).length = 1)
      ∧ ∀ rep, validate_inpatient_data df = .ok rep →
          rep.total_checks = (inpatientChecks df).length := by
  refine ⟨?_, ?_, ?_⟩
  · intro h
    have hgc := getCol_eq_none_of_not_mem df "ClaimID" h
    constructor
    · unfold inpatientChecks
      rw [List.filter_append, List.filter_append, List.filter_append,
        List.filter_append]
      have hex : (inpatientRequiredColumns.map (existsCheck df)).filter
          (fun c => c.column = some "ClaimID")
            = [existsCheck df "ClaimID"] := by
        rw [List.filter_map,
          List.filter_congr (fun col _ => by
            show decide ((existsCheck df col).column = some "ClaimID")
              = decide (col = "ClaimID")
            simp [existsCheck])]
        rw [show inpatientRequiredColumns.filter
            (fun col => decide (col = "ClaimID")) = ["ClaimID"] by decide]
        rfl
      have huniq : claimIdUniqueBlock df = [] := by
        unfold claimIdUniqueBlock
        rw [hgc]
      have hnn : (notNullBlock df
          ["ClaimID", "BeneID", "Provider", "ClaimStartDt", "ClaimEndDt",
           "AdmissionDt", "DischargeDt"]).filter
          (fun c => c.column = some "ClaimID") = [] := by
        rw [List.filter_eq_nil_iff]
        intro c hc
        rcases notNullBlock_fields df _ c hc with ⟨col, hcol, hcolm, -, hsome⟩
        by_cases he : col = "ClaimID"
        · exact absurd (he ▸ hgc) hsome
        · simp [hcolm, he]
      have hpos : (positiveBlock df).filter
          (fun c => c.column = some "ClaimID") = [] := by
        rw [List.filter_eq_nil_iff]
        intro c hc
        rcases positiveBlock_fields df c hc with ⟨hcolm, -⟩
        simp [hcolm]
      rw [hex, huniq, hnn, hpos]
      rw [show ([rowCountCheck df]).filter
          (fun c => c.column = some "ClaimID") = [] by
        rw [List.filter_eq_nil_iff]
        intro c hc
        rcases List.mem_singleton.mp hc with rfl
        simp [rowCountCheck]]
      simp only [List.filter_nil, List.append_nil, List.nil_append,
        List.map_cons, List.map_nil]
      unfold existsCheck
      rw [show decide ("ClaimID" ∈ colNames df) = false from decide_eq_false h]
    · unfold inpatientChecks
      rw [List.filter_append, List.filter_append, List.filter_append,
        List.filter_append]
      have hex : (inpatientRequiredColumns.map (existsCheck df)).filter
          (fun c => c.test = "unique_values") = [] := by
        rw [List.filter_eq_nil_iff]
        intro c hc
        rcases List.mem_map.mp hc with ⟨col, -, rfl⟩
        simp [existsCheck]
      have huniq : claimIdUniqueBlock df = [] := by
        unfold claimIdUniqueBlock
        rw [hgc]
      have hnn : (notNullBlock df
          ["ClaimID", "BeneID", "Provider", "ClaimStartDt", "ClaimEndDt",
           "AdmissionDt", "DischargeDt"]).filter
          (fun c => c.test = "unique_values") = [] := by
        rw [List.filter_eq_nil_iff]
        intro c hc
        rcases notNullBlock_fields df _ c hc with ⟨col, -, -, htest, -⟩
        simp [htest]
      have hpos : (positiveBlock df).filter
          (fun c => c.test = "unique_values") = [] := by
        rw [List.filter_eq_nil_iff]
        intro c hc
        rcases positiveBlock_fields df c hc with ⟨-, htest⟩
        simp [htest]
      rw [hex, huniq, hnn, hpos]
      rw [show ([rowCountCheck df]).filter
          (fun c => c.test = "unique_values") = [] by
        rw [List.filter_eq_nil_iff]
        intro c hc
        rcases List.mem_singleton.mp hc with rfl
        simp [rowCountCheck]]
      simp
  · intro h
    rcases hg : getCol df "ClaimID" with _ | cv
    · exact absurd hg (getCol_ne_none_of_mem df "ClaimID" h)
    unfold inpatientChecks
    rw [List.filter_append, List.filter_append, List.filter_append,
      List.filter_append]
    have hex : (inpatientRequiredColumns.map (existsCheck df)).filter
        (fun c => c.test = "unique_values") = [] := by
      rw [List.filter_eq_nil_iff]
      intro c hc
      rcases List.mem_map.mp hc with ⟨col, -, rfl⟩
      simp [existsCheck]
    have huniq : (claimIdUniqueBlock df).filter
        (fun c => c.test = "unique_values") = claimIdUniqueBlock df := by
      unfold claimIdUniqueBlock
      rw [hg]
      rfl
    have hnn : (notNullBlock df
        ["ClaimID", "BeneID", "Provider", "ClaimStartDt", "ClaimEndDt",
         "AdmissionDt", "DischargeDt"]).filter
        (fun c => c.test = "unique_values") = [] := by
      rw [List.filter_eq_nil_iff]
      intro c hc
      rcases notNullBlock_fields df _ c hc with ⟨col, -, -, htest, -⟩
      simp [htest]
    have hpos : (positiveBlock df).filter
        (fun c => c.test = "unique_values") = [] := by
      rw [List.filter_eq_nil_iff]
      intro c hc
      rcases positiveBlock_fields df c hc with ⟨-, htest⟩
      simp [htest]
    rw [hex, huniq, hnn, hpos]
    rw [show ([rowCountCheck df]).filter
        (fun c => c.test = "unique_values") = [] by
      rw [List.filter_eq_nil_iff]
      intro c hc
      rcases List.mem_singleton.mp hc with rfl
      simp [rowCountCheck]]
    unfold claimIdUniqueBlock
    rw [hg]
    simp
  · intro rep hrep
    unfold validate_inpatient_data buildReport at hrep
    rw [Bool.and_false, if_neg (by simp)] at hrep
    rcases hrep
    rfl

/-- Witness for `validator_guards_dependent_checks` on a one-column frame
without `ClaimID` (both directions of the guard are exercised through the
first and third conjuncts). -/
theorem validator_guards_dependent_checks_witness :
    ("ClaimID" ∉ colNames { nrows := 1, cols := [("BeneID", [Val.str "B1"])] })
      ∧ (("ClaimID" ∉ colNames
            ({ nrows := 1, cols := [("BeneID", [Val.str "B1"])] } : DataFrame) →
          ((inpatientChecks { nrows := 1, cols := [("BeneID", [Val.str "B1"])] }).filter
              (fun c => c.column = some "ClaimID")).map
              (fun c => (c.test, c.success))
            = [("column_exists", false)]
          ∧ (inpatientChecks
                { nrows := 1, cols := [("BeneID", [Val.str "B1"])] }).filter
              (fun c => c.test = "unique_values") = [])
        ∧ ("ClaimID" ∈ colNames
              ({ nrows := 1, cols := [("BeneID", [Val.str "B1"])] } : DataFrame) →
            ((inpatientChecks
                { nrows := 1, cols := [("BeneID", [Val.str "B1"])] }).filter
              (fun c => c.test = "unique_values")).length = 1)
        ∧ ∀ rep, validate_inpatient_data
              { nrows := 1, cols := [("BeneID", [Val.str "B1"])] } = .ok rep →
            rep.total_checks
              = (inpatientChecks
                  { nrows := 1, cols := [("BeneID", [Val.str "B1"])] }).length) :=
  ⟨by decide,
    validator_guards_dependent_checks
      { nrows := 1, cols := [("BeneID", [Val.str "B1"])] }⟩

end HPF
